import Mathlib

/-!
Verification of the category-management and payment subsystems of a
personal-finance backend (Express route handlers over a Supabase/Postgres
store).  The definitions below are a shallow embedding of the JavaScript
route handlers, service methods and the SQL table constraints; theorems
settle the specification claims about them.
-/

namespace FinanceBackend

/-- A JavaScript value as it may appear in a JSON request-body field.
Requests deliver strings, numbers, booleans, `null`, or leave the field
absent (`undefined`). -/
inductive JsVal where
  | str (s : String)
  | num (n : Int)
  | boolean (b : Bool)
  | null
  | undefined
deriving DecidableEq, Repr

/-- JavaScript truthiness of a value (`""`, `0`, `false`, `null` and
`undefined` are falsy). -/
def JsVal.truthy : JsVal → Bool
  | .str s => s != ""
  | .num n => n != 0
  | .boolean b => b
  | .null => false
  | .undefined => false

/-- Whether `typeof v === 'string'`. -/
def JsVal.isString : JsVal → Bool
  | .str _ => true
  | _ => false

/-- The string payload of a value, with a default for non-strings
(only ever used on branches where the value is known to be a string). -/
def JsVal.strOr (v : JsVal) (d : String) : String :=
  match v with
  | .str s => s
  | _ => d

/-- The whitespace characters `String.prototype.trim` strips (the ASCII
part of the JavaScript whitespace class). -/
def isJsWhitespace (c : Char) : Bool :=
  c = ' ' || c = '\t' || c = '\n' || c = '\r' ||
    c = Char.ofNat 11 || c = Char.ofNat 12

/-- JavaScript `s.trim()`: strips leading and trailing whitespace. -/
def jsTrim (s : String) : String :=
  ⟨((s.data.dropWhile isJsWhitespace).reverse.dropWhile isJsWhitespace).reverse⟩

/-- Characters admitted by the type-name pattern `^[a-zA-Z\s\-']+$`:
ASCII letters, whitespace, hyphen, apostrophe. -/
def allowedNameChar (c : Char) : Bool :=
  c.isAlpha || c = ' ' || c = '\t' || c = '\n' || c = '\r' ||
    c = '-' || c = Char.ofNat 39

/-- Result of the `validateCategoryType` middleware: either the request
proceeds with the trimmed name and normalised description, or a client
error response is produced. -/
inductive VResult where
  | ok (type_name : String) (description : Option String)
  | err (status : Nat) (message : String)
deriving DecidableEq, Repr

/-- Whether a validation result lets the request proceed. -/
def VResult.isOk : VResult → Bool
  | .ok _ _ => true
  | .err _ _ => false

/-- The `validateCategoryType` middleware of the category-types router:
rejects a missing / non-string / blank name, an over-long trimmed name,
a name with characters outside the allowed pattern, a truthy non-string
description and a truthy over-long description; otherwise forwards the
trimmed name and the trimmed (or null) description. -/
def validateCategoryType (type_name description : JsVal) : VResult :=
  if !type_name.truthy || !type_name.isString ||
      jsTrim (type_name.strOr "") == "" then
    .err 400 "Type name is required and must be a non-empty string"
  else if (jsTrim (type_name.strOr "")).length > 50 then
    .err 400 "Type name must be 50 characters or less"
  else if !((jsTrim (type_name.strOr "")).toList.all allowedNameChar) then
    .err 400 "Type name must contain only letters, spaces, hyphens, and apostrophes"
  else if description.truthy && !description.isString then
    .err 400 "Description must be a string"
  else if description.truthy && ((description.strOr "").length > 200) then
    .err 400 "Description must be 200 characters or less"
  else
    .ok (jsTrim (type_name.strOr ""))
      (if description.truthy then some (jsTrim (description.strOr "")) else none)

/-- A trimmed type name is valid when non-empty, at most 50 characters,
and drawn from the allowed character class. -/
def validTypeName (s : String) : Bool :=
  jsTrim s != "" && (jsTrim s).length ≤ 50 && (jsTrim s).toList.all allowedNameChar

/-- The acceptance predicate exactly as the specification words it: the
trimmed type name is a valid name, and the description, if present at
all, is a string of at most 200 characters. -/
def specAcceptsCategoryType (type_name description : JsVal) : Bool :=
  (match type_name with
   | .str s => validTypeName s
   | _ => false) &&
  (match description with
   | .str s => s.length ≤ 200
   | .undefined => true
   | _ => false)

/-- The acceptance predicate the code actually implements: the trimmed
type name is a valid name, and the description, if truthy, is a string
of at most 200 characters (falsy descriptions of any type pass). -/
def codeAcceptsCategoryType (type_name description : JsVal) : Bool :=
  (match type_name with
   | .str s => validTypeName s
   | _ => false) &&
  (match description with
   | .str s => s == "" || s.length ≤ 200
   | .num n => n == 0
   | .boolean b => !b
   | .null => true
   | .undefined => true)

/-- An embedded expense subcategory record, as stored in the
`subcategories` JSONB list of an expense-category row
(`{name, icon, isRecurring, frequency?}`). -/
structure Subcat where
  name : String
  icon : String
  isRecurring : Bool
  frequency : Option String
deriving DecidableEq, Repr

/-- A partial update object for a subcategory, spread over the existing
record as in `{ ...sub, ...updateData }`: a field present in the update
overrides the stored one. -/
structure SubcatUpdate where
  name : Option String
  icon : Option String
  isRecurring : Option Bool
  frequency : Option (Option String)
deriving DecidableEq, Repr

/-- JavaScript object spread `{ ...sub, ...updateData }`. -/
def mergeSub (s : Subcat) (u : SubcatUpdate) : Subcat :=
  { name := u.name.getD s.name
    icon := u.icon.getD s.icon
    isRecurring := u.isRecurring.getD s.isRecurring
    frequency := u.frequency.getD s.frequency }

/-- A row of the `category_types` table. -/
structure CategoryType where
  id : Nat
  type_name : String
  description : Option String
deriving DecidableEq, Repr

/-- A row of the `expense_categories` table (with its embedded
subcategory list and `UNIQUE(category)` constraint in the DDL). -/
structure ExpenseCategory where
  id : Nat
  category : String
  icon : Option String
  subcategories : List Subcat
  category_type_id : Option Nat
  is_active : Bool
deriving DecidableEq, Repr

/-- A row of the `income_categories` table (`name` UNIQUE). -/
structure IncomeCategory where
  id : Nat
  name : String
  category_type_id : Option Nat
deriving DecidableEq, Repr

/-- A row of the `income_subcategories` table
(`UNIQUE(category_id, name)`). -/
structure IncomeSubcategory where
  id : Nat
  category_id : Nat
  name : String
  is_recurring : Bool
deriving DecidableEq, Repr

/-- A row of the `payments` table (`razorpay_order_id` UNIQUE; status
constrained to created / authorized / captured / failed / refunded). -/
structure Payment where
  razorpay_order_id : String
  status : String
  razorpay_payment_id : Option String
  razorpay_signature : Option String
  verified_at : Option String
  method : Option String
  email : Option String
  contact : Option String
deriving DecidableEq, Repr

/-- An expense record; it references its category by name. -/
structure Expense where
  id : Nat
  category : String
  amount : Int
deriving DecidableEq, Repr

/-- The tables the claims touch. -/
structure Db where
  category_types : List CategoryType
  expense_categories : List ExpenseCategory
  income_categories : List IncomeCategory
  income_subcategories : List IncomeSubcategory
  payments : List Payment
  expenses : List Expense
deriving DecidableEq, Repr

/-- Semantics of supabase `.single()`: data is returned exactly when the
query matched one row; zero or several matches produce an error, which
the `const { data } = ...` destructuring turns into a null `data`. -/
def selectSingle {α : Type} (rows : List α) : Option α :=
  match rows with
  | [a] => some a
  | _ => none

/-- The uniform `{success, message}` HTTP response envelope together
with the status code the handler sends. -/
structure ApiResp where
  status : Nat
  success : Bool
  message : Option String
deriving DecidableEq, Repr

/-- Response of the create-category-type route, which also carries the
created row as `data`. -/
structure CtResp where
  status : Nat
  success : Bool
  message : Option String
  data : Option CategoryType
deriving DecidableEq, Repr

/-- POST `/api/category-types`: validation middleware, duplicate-name
pre-check via `.single()`, insert (subject to the unique-name
constraint), then best-effort seeding of one default expense category
and one default income category named after the type — the seeding
awaits ignore the store's error results, so a seed insert that violates
a unique constraint is dropped silently and the response is still 201.
`newId`, `expId` and `incId` stand for the store-generated row ids. -/
def createCategoryType (db : Db) (newId expId incId : Nat)
    (type_name description : JsVal) : Db × CtResp :=
  match validateCategoryType type_name description with
  | .err s m => (db, ⟨s, false, some m, none⟩)
  | .ok name desc =>
    match selectSingle (db.category_types.filter (fun t => t.type_name == name)) with
    | some _ =>
      (db, ⟨409, false, some "Category type with this name already exists", none⟩)
    | none =>
      if db.category_types.any (fun t => t.type_name == name) then
        (db, ⟨500, false, some "Failed to create category type", none⟩)
      else
        let newType : CategoryType := ⟨newId, name, desc⟩
        let db1 := { db with category_types := db.category_types ++ [newType] }
        let db2 :=
          if db1.expense_categories.any (fun c => c.category == name) then db1
          else { db1 with expense_categories :=
                  db1.expense_categories ++
                    [⟨expId, name, some "🏷️", [], some newId, true⟩] }
        let db3 :=
          if db2.income_categories.any (fun c => c.name == name) then db2
          else { db2 with income_categories :=
                  db2.income_categories ++ [⟨incId, name, some newId⟩] }
        (db3, ⟨201, true, some "Category type created successfully", some newType⟩)

/-- DELETE `/api/category-types/:id`: existence check via `.single()`,
then a `limit(1)` usage probe against expense categories and another
against income categories — either non-empty probe yields 409 and no
mutation; otherwise the row is deleted and the route responds 200. -/
def deleteCategoryType (db : Db) (id : Nat) : Db × ApiResp :=
  match selectSingle (db.category_types.filter (fun t => t.id == id)) with
  | none => (db, ⟨404, false, some "Category type not found"⟩)
  | some _ =>
    if ((db.expense_categories.filter
          (fun c => c.category_type_id == some id)).take 1).length > 0 then
      (db, ⟨409, false,
        some "Cannot delete category type that is being used by expense categories"⟩)
    else if ((db.income_categories.filter
          (fun c => c.category_type_id == some id)).take 1).length > 0 then
      (db, ⟨409, false,
        some "Cannot delete category type that is being used by income categories"⟩)
    else
      ({ db with category_types := db.category_types.filter (fun t => !(t.id == id)) },
       ⟨200, true, some "Category type deleted successfully"⟩)

/-- POST `/api/income-subcategories` (after the validation middleware
has trimmed `name`): parent-existence check, duplicate `(category_id,
name)` pre-check via `.single()`, then the insert, which the store's
`UNIQUE(category_id, name)` constraint can still reject (500). -/
def createIncomeSubcategory (db : Db) (newId : Nat) (category_id : Nat)
    (name : String) (is_recurring : Bool) : Db × ApiResp :=
  match selectSingle (db.income_categories.filter (fun c => c.id == category_id)) with
  | none => (db, ⟨404, false, some "Income category not found"⟩)
  | some _ =>
    match selectSingle (db.income_subcategories.filter
        (fun s => s.category_id == category_id && s.name == name)) with
    | some _ =>
      (db, ⟨409, false,
        some "Income subcategory with this name already exists for this category"⟩)
    | none =>
      if db.income_subcategories.any
          (fun s => s.category_id == category_id && s.name == name) then
        (db, ⟨500, false, some "Failed to create income subcategory"⟩)
      else
        ({ db with income_subcategories :=
            db.income_subcategories ++ [⟨newId, category_id, name, is_recurring⟩] },
         ⟨201, true, some "Income subcategory created successfully"⟩)

/-- Result of POST `/api/payments/verify`: the mutated store, the HTTP
response, and the error flag of the captured-state row update (the
`error` the handler only logs before answering success). -/
structure VerifyResult where
  db : Db
  resp : ApiResp
  capturedUpdateError : Bool
deriving DecidableEq, Repr

/-- The row update the verify route applies on signature mismatch
(`.update({status:'failed',...}).eq('razorpay_order_id', oid)`). -/
def failUpd (oid pid sig : String) (p : Payment) : Payment :=
  if p.razorpay_order_id == oid then
    { p with status := "failed"
             razorpay_payment_id := some pid
             razorpay_signature := some sig }
  else p

/-- The row update the verify route applies on signature match
(`.update({status:'captured',...,verified_at}).eq(...)`). -/
def captureUpd (oid pid sig now : String) (p : Payment) : Payment :=
  if p.razorpay_order_id == oid then
    { p with status := "captured"
             razorpay_payment_id := some pid
             razorpay_signature := some sig
             verified_at := some now }
  else p

/-- POST `/api/payments/verify`: requires the three razorpay fields,
recomputes the hex HMAC-SHA256 of `orderId|paymentId` under the shared
key secret (`hmacHex` abstracts the crypto primitive) and compares it to
the supplied signature with exact string equality.  Mismatch marks the
order's payment row failed and answers 400 `Invalid signature`; a match
marks it captured with `verified_at := now` and answers 200, logging —
but not surfacing — any error of that update. -/
def verifyPayment (hmacHex : String → String → String) (secret now : String)
    (db : Db) (razorpay_order_id razorpay_payment_id razorpay_signature : String) :
    VerifyResult :=
  if razorpay_order_id == "" || razorpay_payment_id == "" ||
      razorpay_signature == "" then
    ⟨db, ⟨400, false, some "Missing required fields"⟩, false⟩
  else
    let expected := hmacHex secret (razorpay_order_id ++ "|" ++ razorpay_payment_id)
    let failed := db.payments.map
      (failUpd razorpay_order_id razorpay_payment_id razorpay_signature)
    if expected != razorpay_signature then
      ⟨{ db with payments := failed }, ⟨400, false, some "Invalid signature"⟩, false⟩
    else
      let payments1 := db.payments.map
        (captureUpd razorpay_order_id razorpay_payment_id razorpay_signature now)
      let updated := selectSingle (payments1.filter
        (fun p => p.razorpay_order_id == razorpay_order_id))
      ⟨{ db with payments := payments1 }, ⟨200, true, none⟩, updated.isNone⟩

/-- The parts of a webhook request the handler reads: the
`x-razorpay-signature` header, the serialised request body that gets
HMAC-ed, and the event / payload fields. -/
structure WebhookReq where
  signatureHeader : Option String
  rawBody : String
  event : Option String
  orderId : Option String
  paymentEntityId : Option String
  payMethod : Option String
  email : Option String
  contact : Option String
deriving DecidableEq, Repr

/-- The row update the webhook applies for a `payment.captured` event
(`.update({status:'captured', payment id, method, email, contact,
verified_at}).eq('razorpay_order_id', orderId)`). -/
def webhookCaptureUpd (oid : String) (req : WebhookReq) (now : String)
    (p : Payment) : Payment :=
  if p.razorpay_order_id == oid then
    { p with status := "captured"
             razorpay_payment_id := req.paymentEntityId
             method := req.payMethod
             email := req.email
             contact := req.contact
             verified_at := some now }
  else p

/-- POST `/api/payments/webhook`: with a falsy webhook secret it answers
200 at once; otherwise it compares the signature header against the hex
HMAC-SHA256 of the body and answers 400 on mismatch; on a match, only a
`payment.captured` event with a truthy order id updates that order's
payment row to captured, and the route answers 200. -/
def paymentsWebhook (hmacHex : String → String → String) (now : String)
    (webhookSecret : Option String) (db : Db) (req : WebhookReq) : Db × Nat :=
  match webhookSecret with
  | none => (db, 200)
  | some secret =>
    if secret == "" then (db, 200)
    else
      let expected := hmacHex secret req.rawBody
      if req.signatureHeader != some expected then (db, 400)
      else
        if req.event == some "payment.captured" && req.orderId.getD "" != "" then
          let captured := db.payments.map
            (webhookCaptureUpd (req.orderId.getD "") req now)
          ({ db with payments := captured }, 200)
        else (db, 200)

/-- `ExpenseCategoriesService.getAllCategories`: the active rows ordered
by category name. -/
def getAllCategories (db : Db) : List ExpenseCategory :=
  (db.expense_categories.filter (fun c => c.is_active)).mergeSort
    (fun a b => decide (a.category ≤ b.category))

/-- `ExpenseCategoriesService.getSubcategories`: a `.single()` fetch of
the active row with the given name; any query error is logged and
swallowed, an empty list standing in for it. -/
def getSubcategories (db : Db) (categoryName : String) : List Subcat :=
  match selectSingle (db.expense_categories.filter
      (fun c => c.category == categoryName && c.is_active)) with
  | none => []
  | some c => c.subcategories

/-- The shape of the `categoryData` argument of `addCategory`: a name
plus whatever the caller chooses to send for the optional columns
(`none` models an absent field, filled by the column default). -/
structure NewCategoryData where
  category : String
  icon : Option String
  subcategories : Option (List Subcat)
  category_type_id : Option Nat
deriving DecidableEq, Repr

/-- `ExpenseCategoriesService.addCategory`: a bare insert of the given
`categoryData`; the store's `UNIQUE(category)` constraint rejects a
duplicate name (the service throws the error), and the DDL defaults
fill `icon` (null), `subcategories` (`[]`) and `is_active` (true) only
for fields the caller omitted. -/
def addCategory (db : Db) (newId : Nat) (cd : NewCategoryData) :
    Except String (Db × ExpenseCategory) :=
  if db.expense_categories.any (fun c => c.category == cd.category) then
    .error "duplicate key value violates unique constraint"
  else
    let row : ExpenseCategory :=
      ⟨newId, cd.category, cd.icon, cd.subcategories.getD [],
       cd.category_type_id, true⟩
    .ok ({ db with expense_categories := db.expense_categories ++ [row] }, row)

/-- `ExpenseCategoriesService.deleteCategory`: flips `is_active` to
false on the matching row and touches nothing else. -/
def deleteCategory (db : Db) (categoryId : Nat) : Db :=
  { db with expense_categories := db.expense_categories.map (fun c =>
      if c.id == categoryId then { c with is_active := false } else c) }

/-- `ExpenseCategoriesService.addSubcategory`: fetches the category row
(`.single()`, throwing on error), appends the new subcategory to the
embedded list with no duplicate check, and writes the list back. -/
def addSubcategory (db : Db) (categoryId : Nat) (subcategoryData : Subcat) :
    Except Unit Db :=
  match selectSingle (db.expense_categories.filter (fun c => c.id == categoryId)) with
  | none => .error ()
  | some cat =>
    let updatedSubcategories := cat.subcategories ++ [subcategoryData]
    .ok { db with expense_categories := db.expense_categories.map (fun c =>
        if c.id == categoryId then { c with subcategories := updatedSubcategories }
        else c) }

/-- `ExpenseCategoriesService.updateSubcategory`: fetches the row, maps
the embedded list spreading `updateData` over every entry whose name
matches, and writes the list back. -/
def updateSubcategory (db : Db) (categoryId : Nat) (subcategoryName : String)
    (updateData : SubcatUpdate) : Except Unit Db :=
  match selectSingle (db.expense_categories.filter (fun c => c.id == categoryId)) with
  | none => .error ()
  | some cat =>
    let updatedSubcategories := cat.subcategories.map (fun sub =>
      if sub.name == subcategoryName then mergeSub sub updateData else sub)
    .ok { db with expense_categories := db.expense_categories.map (fun c =>
        if c.id == categoryId then { c with subcategories := updatedSubcategories }
        else c) }

/-- `ExpenseCategoriesService.deleteSubcategory`: fetches the row,
filters the matching name out of the embedded list, writes it back. -/
def deleteSubcategory (db : Db) (categoryId : Nat) (subcategoryName : String) :
    Except Unit Db :=
  match selectSingle (db.expense_categories.filter (fun c => c.id == categoryId)) with
  | none => .error ()
  | some cat =>
    let updatedSubcategories := cat.subcategories.filter
      (fun sub => !(sub.name == subcategoryName))
    .ok { db with expense_categories := db.expense_categories.map (fun c =>
        if c.id == categoryId then { c with subcategories := updatedSubcategories }
        else c) }

/-- The data-model invariant on one expense category: each subcategory
name occurs at most once in the embedded list. -/
def subNamesUnique (c : ExpenseCategory) : Prop :=
  (c.subcategories.map (fun s => s.name)).Nodup

/-- The invariant over the whole store. -/
def dbSubsUnique (db : Db) : Prop :=
  ∀ c ∈ db.expense_categories, subNamesUnique c

instance (c : ExpenseCategory) : Decidable (subNamesUnique c) := by
  unfold subNamesUnique; infer_instance

instance (db : Db) : Decidable (dbSubsUnique db) := by
  unfold dbSubsUnique; infer_instance

section Helpers

variable {α : Type}

/-- A `.limit(1)` probe of a filtered query is non-empty exactly when
some row satisfies the predicate. -/
lemma probe_pos_iff (l : List α) (p : α → Bool) :
    0 < ((l.filter p).take 1).length ↔ ∃ x ∈ l, p x = true := by
  constructor
  · intro hlen
    rcases h : l.filter p with _ | ⟨a, t⟩
    · rw [h] at hlen
      simp at hlen
    · have ha : a ∈ l.filter p := by
        rw [h]
        exact List.mem_cons_self a t
      exact ⟨a, (List.mem_filter.mp ha).1, (List.mem_filter.mp ha).2⟩
  · rintro ⟨x, hxl, hpx⟩
    rcases h : l.filter p with _ | ⟨a, t⟩
    · exact absurd hpx (List.filter_eq_nil_iff.mp h x hxl)
    · simp

/-- When no row satisfies the predicate, the filtered query is empty. -/
lemma filter_eq_nil_of_any_false (l : List α) (p : α → Bool)
    (h : l.any p = false) : l.filter p = [] := by
  apply List.filter_eq_nil_iff.mpr
  intro a ha hpa
  have : l.any p = true := List.any_eq_true.mpr ⟨a, ha, hpa⟩
  rw [h] at this
  exact Bool.false_ne_true this

end Helpers

/-- Filtering a mapped payment list by order id equals mapping the
filtered list, provided the map preserves the order id. -/
lemma payments_filter_map (l : List Payment) (f : Payment → Payment)
    (hf : ∀ p, (f p).razorpay_order_id = p.razorpay_order_id) (oid : String) :
    (l.map f).filter (fun p => p.razorpay_order_id == oid) =
      (l.filter (fun p => p.razorpay_order_id == oid)).map f := by
  induction l with
  | nil => rfl
  | cons a t ih =>
    simp only [List.map_cons, List.filter_cons, hf a]
    by_cases h : (a.razorpay_order_id == oid) = true
    · simp [h, ih]
    · simp only [Bool.not_eq_true] at h
      simp [h, ih]

/-- The failed-state update never changes a row's order id. -/
lemma failUpd_keeps_oid (oid pid sig : String) (p : Payment) :
    (failUpd oid pid sig p).razorpay_order_id = p.razorpay_order_id := by
  unfold failUpd
  by_cases h : (p.razorpay_order_id == oid) = true
  · rw [if_pos h]
  · rw [if_neg h]

/-- The captured-state update never changes a row's order id. -/
lemma captureUpd_keeps_oid (oid pid sig now : String) (p : Payment) :
    (captureUpd oid pid sig now p).razorpay_order_id = p.razorpay_order_id := by
  unfold captureUpd
  by_cases h : (p.razorpay_order_id == oid) = true
  · rw [if_pos h]
  · rw [if_neg h]

/-- The webhook captured-state update never changes a row's order id. -/
lemma webhookCaptureUpd_keeps_oid (oid : String) (req : WebhookReq) (now : String)
    (p : Payment) :
    (webhookCaptureUpd oid req now p).razorpay_order_id = p.razorpay_order_id := by
  unfold webhookCaptureUpd
  by_cases h : (p.razorpay_order_id == oid) = true
  · rw [if_pos h]
  · rw [if_neg h]

/-- C1: for a verification request carrying the three razorpay fields
and a store holding exactly one payment row for the order id, a
signature equal to the hex HMAC of `orderId|paymentId` under the shared
secret turns that row captured with `verified_at` stamped and the
endpoint answers success; any other signature turns the row failed and
the endpoint answers 400 `Invalid signature`. -/
theorem payment_verify_signature_decides_state
    (hmacHex : String → String → String) (secret now : String) (db : Db)
    (oid pid sig : String) (p0 : Payment)
    (hOid : oid ≠ "") (hPid : pid ≠ "") (hSig : sig ≠ "")
    (hRow : db.payments.filter (fun p => p.razorpay_order_id == oid) = [p0]) :
    (sig = hmacHex secret (oid ++ "|" ++ pid) →
      (verifyPayment hmacHex secret now db oid pid sig).resp.status = 200 ∧
      (verifyPayment hmacHex secret now db oid pid sig).resp.success = true ∧
      (verifyPayment hmacHex secret now db oid pid sig).db.payments.filter
          (fun p => p.razorpay_order_id == oid) =
        [{ p0 with status := "captured"
                   razorpay_payment_id := some pid
                   razorpay_signature := some sig
                   verified_at := some now }]) ∧
    (sig ≠ hmacHex secret (oid ++ "|" ++ pid) →
      (verifyPayment hmacHex secret now db oid pid sig).resp.status = 400 ∧
      (verifyPayment hmacHex secret now db oid pid sig).resp.success = false ∧
      (verifyPayment hmacHex secret now db oid pid sig).resp.message =
        some "Invalid signature" ∧
      (verifyPayment hmacHex secret now db oid pid sig).db.payments.filter
          (fun p => p.razorpay_order_id == oid) =
        [{ p0 with status := "failed"
                   razorpay_payment_id := some pid
                   razorpay_signature := some sig }]) := by
  have hp0 : (p0.razorpay_order_id == oid) = true := by
    have hmem : p0 ∈ db.payments.filter (fun p => p.razorpay_order_id == oid) := by
      rw [hRow]
      exact List.mem_singleton_self p0
    exact (List.mem_filter.mp hmem).2
  have hcond : (oid == "" || pid == "" || sig == "") = false := by
    rw [beq_eq_false_iff_ne.mpr hOid, beq_eq_false_iff_ne.mpr hPid,
      beq_eq_false_iff_ne.mpr hSig]
    rfl
  constructor
  · intro hEq
    have hMatch : (hmacHex secret (oid ++ "|" ++ pid) != sig) = false := by
      rw [hEq]
      simp [bne]
    have hFilt : ((db.payments.map (captureUpd oid pid sig now)).filter
          (fun p => p.razorpay_order_id == oid)) =
        [{ p0 with status := "captured"
                   razorpay_payment_id := some pid
                   razorpay_signature := some sig
                   verified_at := some now }] := by
      rw [payments_filter_map _ _ (captureUpd_keeps_oid oid pid sig now) oid, hRow]
      simp only [List.map_cons, List.map_nil]
      unfold captureUpd
      rw [if_pos hp0]
    have hval : verifyPayment hmacHex secret now db oid pid sig =
        ⟨{ db with payments := db.payments.map (captureUpd oid pid sig now) },
         ⟨200, true, none⟩, false⟩ := by
      simp only [verifyPayment, hcond, Bool.false_eq_true, if_false, hMatch,
        hFilt, selectSingle, Option.isNone]
    rw [hval]
    exact ⟨rfl, rfl, hFilt⟩
  · intro hNe
    have hMatch : (hmacHex secret (oid ++ "|" ++ pid) != sig) = true := by
      simp only [bne, Bool.not_eq_true']
      exact beq_eq_false_iff_ne.mpr (fun h => hNe h.symm)
    have hFilt : ((db.payments.map (failUpd oid pid sig)).filter
          (fun p => p.razorpay_order_id == oid)) =
        [{ p0 with status := "failed"
                   razorpay_payment_id := some pid
                   razorpay_signature := some sig }] := by
      rw [payments_filter_map _ _ (failUpd_keeps_oid oid pid sig) oid, hRow]
      simp only [List.map_cons, List.map_nil]
      unfold failUpd
      rw [if_pos hp0]
    have hval : verifyPayment hmacHex secret now db oid pid sig =
        ⟨{ db with payments := db.payments.map (failUpd oid pid sig) },
         ⟨400, false, some "Invalid signature"⟩, false⟩ := by
      simp only [verifyPayment, hcond, Bool.false_eq_true, if_false, hMatch,
        eq_self_iff_true, if_true]
    rw [hval]
    exact ⟨rfl, rfl, rfl, hFilt⟩

/-- A concrete stand-in for the hex-HMAC primitive, used by witnesses. -/
def exHmac : String → String → String := fun secret msg => secret ++ ":" ++ msg

/-- A concrete payment row in `created` state. -/
def exPayment : Payment := ⟨"order1", "created", none, none, none, none, none, none⟩

/-- A store holding exactly the one payment row. -/
def exPayDb : Db := ⟨[], [], [], [], [exPayment], []⟩

/-- Witness for C1: at the concrete store, a matching signature yields a
200 success. -/
theorem payment_verify_signature_decides_state_witness :
    (("order1" : String) ≠ "" ∧
      exPayDb.payments.filter (fun p => p.razorpay_order_id == "order1") =
        [exPayment]) ∧
    (verifyPayment exHmac "sec" "T0" exPayDb "order1" "pay1"
        (exHmac "sec" ("order1" ++ "|" ++ "pay1"))).resp.status = 200 := by
  refine ⟨⟨by decide, by decide⟩, ?_⟩
  exact ((payment_verify_signature_decides_state exHmac "sec" "T0" exPayDb
    "order1" "pay1" (exHmac "sec" ("order1" ++ "|" ++ "pay1")) exPayment
    (by decide) (by decide) (by decide) (by decide)).1 rfl).1

/-- C2: deleting an existing category type is answered 409 with the
store untouched whenever some expense or income category references the
type via `category_type_id`; with zero references the row is removed
(and only that row) and the route answers success. -/
theorem category_type_delete_blocked_iff_referenced (db : Db) (id : Nat)
    (t0 : CategoryType)
    (hEx : db.category_types.filter (fun t => t.id == id) = [t0]) :
    ((∃ c ∈ db.expense_categories, c.category_type_id = some id) ∨
        (∃ c ∈ db.income_categories, c.category_type_id = some id) →
      (deleteCategoryType db id).2.status = 409 ∧
      (deleteCategoryType db id).2.success = false ∧
      (deleteCategoryType db id).1 = db) ∧
    ((∀ c ∈ db.expense_categories, c.category_type_id ≠ some id) →
      (∀ c ∈ db.income_categories, c.category_type_id ≠ some id) →
      (deleteCategoryType db id).2.status = 200 ∧
      (deleteCategoryType db id).2.success = true ∧
      (∀ u ∈ (deleteCategoryType db id).1.category_types, u.id ≠ id) ∧
      (∀ u ∈ db.category_types, u.id ≠ id →
        u ∈ (deleteCategoryType db id).1.category_types) ∧
      (deleteCategoryType db id).1.expense_categories = db.expense_categories ∧
      (deleteCategoryType db id).1.income_categories = db.income_categories) := by
  have hsel : selectSingle (db.category_types.filter (fun t => t.id == id)) =
      some t0 := by
    rw [hEx]
    rfl
  constructor
  · intro href
    simp only [deleteCategoryType, hsel]
    by_cases hE : 0 < ((db.expense_categories.filter
        (fun c => c.category_type_id == some id)).take 1).length
    · rw [if_pos hE]
      exact ⟨rfl, rfl, rfl⟩
    · rw [if_neg hE]
      have hInc : ∃ c ∈ db.income_categories, c.category_type_id = some id := by
        rcases href with hexp | hinc
        · exfalso
          apply hE
          rw [probe_pos_iff]
          obtain ⟨c, hc, hcp⟩ := hexp
          exact ⟨c, hc, beq_iff_eq.mpr hcp⟩
        · exact hinc
      have hI : 0 < ((db.income_categories.filter
          (fun c => c.category_type_id == some id)).take 1).length := by
        rw [probe_pos_iff]
        obtain ⟨c, hc, hcp⟩ := hInc
        exact ⟨c, hc, beq_iff_eq.mpr hcp⟩
      rw [if_pos hI]
      exact ⟨rfl, rfl, rfl⟩
  · intro hExp hInc
    have hE : ¬ 0 < ((db.expense_categories.filter
        (fun c => c.category_type_id == some id)).take 1).length := by
      rw [probe_pos_iff]
      rintro ⟨c, hc, hcp⟩
      exact hExp c hc (beq_iff_eq.mp hcp)
    have hI : ¬ 0 < ((db.income_categories.filter
        (fun c => c.category_type_id == some id)).take 1).length := by
      rw [probe_pos_iff]
      rintro ⟨c, hc, hcp⟩
      exact hInc c hc (beq_iff_eq.mp hcp)
    simp only [deleteCategoryType, hsel]
    rw [if_neg hE, if_neg hI]
    refine ⟨rfl, rfl, ?_, ?_, rfl, rfl⟩
    · intro u hu
      have hm := List.mem_filter.mp hu
      have : (u.id == id) = false := by
        rcases h2 : (u.id == id) with _ | _
        · rfl
        · rw [h2] at hm
          exact absurd hm.2 (by decide)
      exact beq_eq_false_iff_ne.mp this
    · intro u hu hne
      refine List.mem_filter.mpr ⟨hu, ?_⟩
      rw [beq_eq_false_iff_ne.mpr hne]
      rfl

/-- A concrete category type row. -/
def exCt : CategoryType := ⟨1, "Savings", none⟩

/-- A store holding the one category type and nothing referencing it. -/
def exCtDb : Db := ⟨[exCt], [], [], [], [], []⟩

/-- Witness for C2: at the unreferenced concrete store the delete
succeeds with 200. -/
theorem category_type_delete_blocked_iff_referenced_witness :
    exCtDb.category_types.filter (fun t => t.id == 1) = [exCt] ∧
    (deleteCategoryType exCtDb 1).2.status = 200 := by
  refine ⟨by decide, ?_⟩
  exact ((category_type_delete_blocked_iff_referenced exCtDb 1 exCt (by decide)).2
    (by intro c hc; cases hc) (by intro c hc; cases hc)).1

/-- C3: under an existing income category, creating a subcategory name
that is already present is answered 409 with no row inserted; creating
the same name under two different existing categories succeeds both
times, appending one row each. -/
theorem income_subcategory_unique_within_category (db : Db) :
    (∀ cid nid rec s0 c0, ∀ name : String,
      db.income_categories.filter (fun c => c.id == cid) = [c0] →
      db.income_subcategories.filter
          (fun s => s.category_id == cid && s.name == name) = [s0] →
      (createIncomeSubcategory db nid cid name rec).2.status = 409 ∧
      (createIncomeSubcategory db nid cid name rec).2.success = false ∧
      (createIncomeSubcategory db nid cid name rec).1 = db) ∧
    (∀ cid1 cid2 nid1 nid2 rec1 rec2 c1 c2, ∀ name : String,
      cid1 ≠ cid2 →
      db.income_categories.filter (fun c => c.id == cid1) = [c1] →
      db.income_categories.filter (fun c => c.id == cid2) = [c2] →
      db.income_subcategories.any
        (fun s => s.category_id == cid1 && s.name == name) = false →
      db.income_subcategories.any
        (fun s => s.category_id == cid2 && s.name == name) = false →
      (createIncomeSubcategory db nid1 cid1 name rec1).2.status = 201 ∧
      (createIncomeSubcategory db nid1 cid1 name rec1).2.success = true ∧
      (createIncomeSubcategory db nid1 cid1 name rec1).1.income_subcategories =
        db.income_subcategories ++ [⟨nid1, cid1, name, rec1⟩] ∧
      (createIncomeSubcategory (createIncomeSubcategory db nid1 cid1 name rec1).1
          nid2 cid2 name rec2).2.status = 201 ∧
      (createIncomeSubcategory (createIncomeSubcategory db nid1 cid1 name rec1).1
          nid2 cid2 name rec2).2.success = true ∧
      (createIncomeSubcategory (createIncomeSubcategory db nid1 cid1 name rec1).1
          nid2 cid2 name rec2).1.income_subcategories =
        db.income_subcategories ++ [⟨nid1, cid1, name, rec1⟩] ++
          [⟨nid2, cid2, name, rec2⟩]) := by
  constructor
  · intro cid nid rec s0 c0 name hc hdup
    have hsel1 : selectSingle (db.income_categories.filter (fun c => c.id == cid)) =
        some c0 := by
      rw [hc]
      rfl
    have hsel2 : selectSingle (db.income_subcategories.filter
        (fun s => s.category_id == cid && s.name == name)) = some s0 := by
      rw [hdup]
      rfl
    have hval : createIncomeSubcategory db nid cid name rec =
        (db, ⟨409, false,
          some "Income subcategory with this name already exists for this category"⟩) := by
      simp only [createIncomeSubcategory, hsel1, hsel2]
    rw [hval]
    exact ⟨rfl, rfl, rfl⟩
  · intro cid1 cid2 nid1 nid2 rec1 rec2 c1 c2 name hne hc1 hc2 hany1 hany2
    have hsel1 : selectSingle (db.income_categories.filter (fun c => c.id == cid1)) =
        some c1 := by
      rw [hc1]
      rfl
    have hfil1 : db.income_subcategories.filter
        (fun s => s.category_id == cid1 && s.name == name) = [] :=
      filter_eq_nil_of_any_false _ _ hany1
    have hdup1 : selectSingle (db.income_subcategories.filter
        (fun s => s.category_id == cid1 && s.name == name)) = none := by
      rw [hfil1]
      rfl
    have hr1 : createIncomeSubcategory db nid1 cid1 name rec1 =
        ({ db with income_subcategories :=
            db.income_subcategories ++ [⟨nid1, cid1, name, rec1⟩] },
         ⟨201, true, some "Income subcategory created successfully"⟩) := by
      simp only [createIncomeSubcategory, hsel1, hdup1, hany1,
        Bool.false_eq_true, if_false]
    have hb12 : (cid1 == cid2) = false := beq_eq_false_iff_ne.mpr hne
    have hsel2 : selectSingle (db.income_categories.filter (fun c => c.id == cid2)) =
        some c2 := by
      rw [hc2]
      rfl
    have hany2L : (db.income_subcategories ++
          [(⟨nid1, cid1, name, rec1⟩ : IncomeSubcategory)]).any
        (fun s => s.category_id == cid2 && s.name == name) = false := by
      rw [List.any_append, hany2]
      simp only [List.any_cons, List.any_nil, hb12, Bool.false_and,
        Bool.or_false, Bool.false_or]
    have hdup2L : selectSingle ((db.income_subcategories ++
          [(⟨nid1, cid1, name, rec1⟩ : IncomeSubcategory)]).filter
        (fun s => s.category_id == cid2 && s.name == name)) = none := by
      rw [filter_eq_nil_of_any_false _ _ hany2L]
      rfl
    have hr2 : createIncomeSubcategory (createIncomeSubcategory db nid1 cid1 name rec1).1
        nid2 cid2 name rec2 =
        ({ db with income_subcategories :=
            (db.income_subcategories ++ [⟨nid1, cid1, name, rec1⟩]) ++
              [⟨nid2, cid2, name, rec2⟩] },
         ⟨201, true, some "Income subcategory created successfully"⟩) := by
      rw [hr1]
      simp only [createIncomeSubcategory, hsel2, hdup2L, hany2L,
        Bool.false_eq_true, if_false]
    refine ⟨?_, ?_, ?_, ?_, ?_, ?_⟩
    · rw [hr1]
    · rw [hr1]
    · rw [hr1]
    · rw [hr2]
    · rw [hr2]
    · rw [hr2]

/-- Two concrete income categories with one existing subcategory. -/
def exIncDb : Db :=
  ⟨[], [], [⟨1, "Salary", none⟩, ⟨2, "Freelance", none⟩],
   [⟨10, 1, "Bonus", false⟩], [], []⟩

/-- Witness for C3: the duplicate create is answered 409 and a fresh
name under the first category is answered 201. -/
theorem income_subcategory_unique_within_category_witness :
    exIncDb.income_subcategories.filter
        (fun s => s.category_id == 1 && s.name == "Bonus") =
      [⟨10, 1, "Bonus", false⟩] ∧
    (createIncomeSubcategory exIncDb 99 1 "Bonus" false).2.status = 409 ∧
    (createIncomeSubcategory exIncDb 98 1 "Stipend" true).2.status = 201 := by
  refine ⟨by decide, ?_, ?_⟩
  · exact ((income_subcategory_unique_within_category exIncDb).1 1 99 false
      ⟨10, 1, "Bonus", false⟩ ⟨1, "Salary", none⟩ "Bonus" (by decide) (by decide)).1
  · exact ((income_subcategory_unique_within_category exIncDb).2 1 2 98 97 true false
      ⟨1, "Salary", none⟩ ⟨2, "Freelance", none⟩ "Stipend" (by decide) (by decide)
      (by decide) (by decide) (by decide)).1

/-- C4: creating a category type with a valid, previously unused name
inserts exactly one `category_types` row and answers 201 with the
created row; as a best-effort side effect one default expense category
and one default income category named after the type and linked to its
id are seeded, and a seed blocked by an existing same-named category is
dropped without affecting the 201 response. -/
theorem create_category_type_seeds_defaults (db : Db) (newId expId incId : Nat)
    (tn d : JsVal) (name : String) (desc : Option String)
    (hV : validateCategoryType tn d = .ok name desc)
    (hNew : db.category_types.any (fun t => t.type_name == name) = false) :
    (createCategoryType db newId expId incId tn d).2.status = 201 ∧
    (createCategoryType db newId expId incId tn d).2.success = true ∧
    (createCategoryType db newId expId incId tn d).2.data = some ⟨newId, name, desc⟩ ∧
    (createCategoryType db newId expId incId tn d).1.category_types =
      db.category_types ++ [⟨newId, name, desc⟩] ∧
    (db.expense_categories.any (fun c => c.category == name) = false →
      (createCategoryType db newId expId incId tn d).1.expense_categories =
        db.expense_categories ++ [⟨expId, name, some "🏷️", [], some newId, true⟩]) ∧
    (db.expense_categories.any (fun c => c.category == name) = true →
      (createCategoryType db newId expId incId tn d).1.expense_categories =
        db.expense_categories) ∧
    (db.income_categories.any (fun c => c.name == name) = false →
      (createCategoryType db newId expId incId tn d).1.income_categories =
        db.income_categories ++ [⟨incId, name, some newId⟩]) ∧
    (db.income_categories.any (fun c => c.name == name) = true →
      (createCategoryType db newId expId incId tn d).1.income_categories =
        db.income_categories) := by
  have hsel : selectSingle (db.category_types.filter (fun t => t.type_name == name)) =
      none := by
    rw [filter_eq_nil_of_any_false _ _ hNew]
    rfl
  rcases hE : db.expense_categories.any (fun c => c.category == name) with _ | _ <;>
    rcases hI : db.income_categories.any (fun c => c.name == name) with _ | _
  · have hval : createCategoryType db newId expId incId tn d =
        ({ db with
            category_types := db.category_types ++ [⟨newId, name, desc⟩]
            expense_categories :=
              db.expense_categories ++ [⟨expId, name, some "🏷️", [], some newId, true⟩]
            income_categories := db.income_categories ++ [⟨incId, name, some newId⟩] },
         ⟨201, true, some "Category type created successfully", some ⟨newId, name, desc⟩⟩) := by
      simp only [createCategoryType, hV, hsel, hNew, hE, hI,
        Bool.false_eq_true, if_false]
    rw [hval]
    exact ⟨rfl, rfl, rfl, rfl, fun _ => rfl, fun h => absurd h (by decide),
      fun _ => rfl, fun h => absurd h (by decide)⟩
  · have hval : createCategoryType db newId expId incId tn d =
        ({ db with
            category_types := db.category_types ++ [⟨newId, name, desc⟩]
            expense_categories :=
              db.expense_categories ++ [⟨expId, name, some "🏷️", [], some newId, true⟩] },
         ⟨201, true, some "Category type created successfully", some ⟨newId, name, desc⟩⟩) := by
      simp only [createCategoryType, hV, hsel, hNew, hE, hI,
        Bool.false_eq_true, if_false, if_true]
    rw [hval]
    exact ⟨rfl, rfl, rfl, rfl, fun _ => rfl, fun h => absurd h (by decide),
      fun h => absurd h (by decide), fun _ => rfl⟩
  · have hval : createCategoryType db newId expId incId tn d =
        ({ db with
            category_types := db.category_types ++ [⟨newId, name, desc⟩]
            income_categories := db.income_categories ++ [⟨incId, name, some newId⟩] },
         ⟨201, true, some "Category type created successfully", some ⟨newId, name, desc⟩⟩) := by
      simp only [createCategoryType, hV, hsel, hNew, hE, hI,
        Bool.false_eq_true, if_false, if_true]
    rw [hval]
    exact ⟨rfl, rfl, rfl, rfl, fun h => absurd h (by decide), fun _ => rfl,
      fun _ => rfl, fun h => absurd h (by decide)⟩
  · have hval : createCategoryType db newId expId incId tn d =
        ({ db with
            category_types := db.category_types ++ [⟨newId, name, desc⟩] },
         ⟨201, true, some "Category type created successfully", some ⟨newId, name, desc⟩⟩) := by
      simp only [createCategoryType, hV, hsel, hNew, hE, hI,
        Bool.false_eq_true, if_false, if_true]
    rw [hval]
    exact ⟨rfl, rfl, rfl, rfl, fun h => absurd h (by decide), fun _ => rfl,
      fun h => absurd h (by decide), fun _ => rfl⟩

/-- Witness for C4: creating the type `Savings` on an empty store yields
201, the one type row and both seeded categories. -/
theorem create_category_type_seeds_defaults_witness :
    validateCategoryType (JsVal.str "Savings") JsVal.undefined =
      .ok "Savings" none ∧
    (createCategoryType ⟨[], [], [], [], [], []⟩ 1 2 3 (JsVal.str "Savings")
        JsVal.undefined).2.status = 201 ∧
    (createCategoryType ⟨[], [], [], [], [], []⟩ 1 2 3 (JsVal.str "Savings")
        JsVal.undefined).1.expense_categories =
      [⟨2, "Savings", some "🏷️", [], some 1, true⟩] := by
  have h := create_category_type_seeds_defaults ⟨[], [], [], [], [], []⟩ 1 2 3
    (JsVal.str "Savings") JsVal.undefined "Savings" none (by decide) (by decide)
  refine ⟨by decide, h.1, ?_⟩
  rw [h.2.2.2.2.1 (by decide)]
  rfl

/-- Whether a validation message names the offending field, i.e. starts
with `Type name` or `Description`. -/
def msgNamesField (m : String) : Bool :=
  m.data.take 9 == "Type name".data || m.data.take 11 == "Description".data

/-- C5 counterexample: the request `{type_name: "Food", description:
false}` carries a present non-string description, which the claimed
acceptance predicate rejects, yet the validator accepts it (a falsy
description skips the type check). -/
theorem category_type_validation_spec_counterexample :
    (validateCategoryType (JsVal.str "Food") (JsVal.boolean false)).isOk = true ∧
    specAcceptsCategoryType (JsVal.str "Food") (JsVal.boolean false) = false := by
  exact ⟨by decide, by decide⟩

/-- C5 (amended): the validator accepts exactly when the trimmed type
name is non-empty, at most 50 characters and matches the allowed
pattern, and the description, if truthy, is a string of at most 200
characters (falsy descriptions of any type pass); every rejection is an
HTTP 400 whose message names the offending field. -/
theorem category_type_validation_amended :
    (∀ tn d : JsVal, (validateCategoryType tn d).isOk = codeAcceptsCategoryType tn d) ∧
    (∀ tn d : JsVal, ∀ s : Nat, ∀ m : String, validateCategoryType tn d = .err s m →
      s = 400 ∧ msgNamesField m = true) := by
  constructor
  · intro tn d
    cases tn with
    | num n =>
      cases d <;>
        simp [validateCategoryType, codeAcceptsCategoryType, JsVal.truthy,
          JsVal.isString, JsVal.strOr, VResult.isOk]
    | boolean b =>
      cases d <;>
        simp [validateCategoryType, codeAcceptsCategoryType, JsVal.truthy,
          JsVal.isString, JsVal.strOr, VResult.isOk]
    | null =>
      cases d <;>
        simp [validateCategoryType, codeAcceptsCategoryType, JsVal.truthy,
          JsVal.isString, JsVal.strOr, VResult.isOk]
    | undefined =>
      cases d <;>
        simp [validateCategoryType, codeAcceptsCategoryType, JsVal.truthy,
          JsVal.isString, JsVal.strOr, VResult.isOk]
    | str s =>
      have hjt : (s == "") = true → (jsTrim s == "") = true := by
        intro h
        rw [beq_iff_eq.mp h]
        decide
      by_cases h1 : (jsTrim s == "") = true
      · have hvn : validTypeName s = false := by
          unfold validTypeName
          rw [bne, h1]
          rfl
        cases d <;>
          simp [validateCategoryType, codeAcceptsCategoryType, JsVal.truthy,
            JsVal.isString, JsVal.strOr, VResult.isOk, h1, hvn]
      · have hs0 : (s == "") = false := by
          rcases h : (s == "") with _ | _
          · rfl
          · exact absurd (hjt h) h1
        have h1f : (jsTrim s == "") = false := by
          rcases h : (jsTrim s == "") with _ | _
          · rfl
          · exact absurd h h1
        have hs0p : s ≠ "" := beq_eq_false_iff_ne.mp hs0
        have h1fp : jsTrim s ≠ "" := beq_eq_false_iff_ne.mp h1f
        by_cases h2 : (jsTrim s).length > 50
        · have hvn : validTypeName s = false := by
            unfold validTypeName
            rw [bne, h1f, decide_eq_false (Nat.not_le.mpr h2)]
            simp
          cases d <;>
            simp [validateCategoryType, codeAcceptsCategoryType, JsVal.truthy,
              JsVal.isString, JsVal.strOr, VResult.isOk, hs0, h1f, hs0p, h1fp, h2, hvn]
        · by_cases h3 : ((jsTrim s).toList.all allowedNameChar) = true
          · have hvn : validTypeName s = true := by
              unfold validTypeName
              rw [bne, h1f, decide_eq_true (Nat.not_lt.mp h2), h3]
              rfl
            have h3e : ¬∃ x ∈ (jsTrim s).data, allowedNameChar x = false := by
              rintro ⟨x, hx, hxf⟩
              have hxt : allowedNameChar x = true := List.all_eq_true.mp h3 x hx
              rw [hxt] at hxf
              exact Bool.noConfusion hxf
            cases d with
            | str t =>
              by_cases ht : (t == "") = true
              · simp [validateCategoryType, codeAcceptsCategoryType, JsVal.truthy,
                  JsVal.isString, JsVal.strOr, VResult.isOk, hs0, h1f, hs0p, h1fp, h2, h3, h3e,
                  hvn, ht, beq_iff_eq.mp ht]
              · have htp : t ≠ "" := fun he => ht (beq_iff_eq.mpr he)
                by_cases hl : t.length > 200
                · simp [validateCategoryType, codeAcceptsCategoryType,
                    JsVal.truthy, JsVal.isString, JsVal.strOr, VResult.isOk,
                    hs0, h1f, hs0p, h1fp, h2, h3, h3e, hvn, ht, htp, hl,
                    Nat.not_le.mpr hl]
                · simp [validateCategoryType, codeAcceptsCategoryType,
                    JsVal.truthy, JsVal.isString, JsVal.strOr, VResult.isOk,
                    hs0, h1f, hs0p, h1fp, h2, h3, h3e, hvn, ht, htp, hl,
                    Nat.not_lt.mp hl]
            | num n =>
              by_cases hn : (n == 0) = true
              · simp [validateCategoryType, codeAcceptsCategoryType, JsVal.truthy,
                  JsVal.isString, JsVal.strOr, VResult.isOk, hs0, h1f, hs0p, h1fp, h2, h3, h3e,
                  hvn, hn, beq_iff_eq.mp hn]
              · simp [validateCategoryType, codeAcceptsCategoryType, JsVal.truthy,
                  JsVal.isString, JsVal.strOr, VResult.isOk, hs0, h1f, hs0p, h1fp, h2, h3, h3e,
                  hvn, hn]
                simp at hn
                simp [hn]
            | boolean b =>
              cases b <;>
                simp [validateCategoryType, codeAcceptsCategoryType, JsVal.truthy,
                  JsVal.isString, JsVal.strOr, VResult.isOk, hs0, h1f, hs0p, h1fp, h2, h3,
                  h3e, hvn]
            | null =>
              simp [validateCategoryType, codeAcceptsCategoryType, JsVal.truthy,
                JsVal.isString, JsVal.strOr, VResult.isOk, hs0, h1f, hs0p, h1fp, h2, h3,
                h3e, hvn]
            | undefined =>
              simp [validateCategoryType, codeAcceptsCategoryType, JsVal.truthy,
                JsVal.isString, JsVal.strOr, VResult.isOk, hs0, h1f, hs0p, h1fp, h2, h3,
                h3e, hvn]
          · have haf : (jsTrim s).toList.all allowedNameChar = false := by
              rcases h : ((jsTrim s).toList.all allowedNameChar) with _ | _
              · rfl
              · exact absurd h h3
            have hvn : validTypeName s = false := by
              unfold validTypeName
              rw [haf]
              simp
            have h3x : ∃ x ∈ (jsTrim s).data, allowedNameChar x = false := by
              obtain ⟨x, hx, hxf⟩ := List.all_eq_false.mp haf
              exact ⟨x, hx, Bool.not_eq_true _ ▸ hxf⟩
            cases d <;>
              simp [validateCategoryType, codeAcceptsCategoryType, JsVal.truthy,
                JsVal.isString, JsVal.strOr, VResult.isOk, hs0, h1f, hs0p, h1fp,
                h2, h3, h3x, hvn]
  · intro tn d s m h
    unfold validateCategoryType at h
    split at h
    · cases h
      exact ⟨rfl, by decide⟩
    · split at h
      · cases h
        exact ⟨rfl, by decide⟩
      · split at h
        · cases h
          exact ⟨rfl, by decide⟩
        · split at h
          · cases h
            exact ⟨rfl, by decide⟩
          · split at h
            · cases h
              exact ⟨rfl, by decide⟩
            · cases h

/-- Witness for C5 (amended): concrete accept and reject instances. -/
theorem category_type_validation_amended_witness :
    (validateCategoryType (JsVal.str " Food ") JsVal.undefined).isOk =
      codeAcceptsCategoryType (JsVal.str " Food ") JsVal.undefined ∧
    ((400 : Nat) = 400 ∧
      msgNamesField "Type name is required and must be a non-empty string" = true) := by
  constructor
  · exact category_type_validation_amended.1 (JsVal.str " Food ") JsVal.undefined
  · exact category_type_validation_amended.2 (JsVal.str "") JsVal.undefined 400
      "Type name is required and must be a non-empty string" (by decide)

/-- C6: soft-deleting an expense category flips only its `is_active`
flag: no row is removed, every other field of every row (name, icon,
subcategory list, type link) is unchanged, the `is_active` flag of every
other row is unchanged, the expense records (and all other tables) are
untouched, and the category no longer appears in the active listing. -/
theorem soft_delete_only_flips_active (db : Db) (cid : Nat) :
    (deleteCategory db cid).expenses = db.expenses ∧
    (deleteCategory db cid).payments = db.payments ∧
    (deleteCategory db cid).category_types = db.category_types ∧
    (deleteCategory db cid).income_categories = db.income_categories ∧
    (deleteCategory db cid).income_subcategories = db.income_subcategories ∧
    List.Forall₂ (fun c c1 =>
        c1.id = c.id ∧ c1.category = c.category ∧ c1.icon = c.icon ∧
        c1.subcategories = c.subcategories ∧
        c1.category_type_id = c.category_type_id ∧
        (c.id ≠ cid → c1.is_active = c.is_active))
      db.expense_categories (deleteCategory db cid).expense_categories ∧
    (∀ c1 ∈ getAllCategories (deleteCategory db cid), c1.id ≠ cid) := by
  refine ⟨rfl, rfl, rfl, rfl, rfl, ?_, ?_⟩
  · show List.Forall₂ _ db.expense_categories (db.expense_categories.map
      (fun c => if c.id == cid then { c with is_active := false } else c))
    rw [List.forall₂_map_right_iff, List.forall₂_same]
    intro c _
    by_cases h : (c.id == cid) = true
    · rw [if_pos h]
      exact ⟨rfl, rfl, rfl, rfl, rfl, fun hne => absurd (beq_iff_eq.mp h) hne⟩
    · rw [if_neg h]
      exact ⟨rfl, rfl, rfl, rfl, rfl, fun _ => rfl⟩
  · intro c1 hmem
    have hf := List.mem_filter.mp (List.mem_mergeSort.mp hmem)
    have hact : c1.is_active = true := hf.2
    obtain ⟨c, _, hfc⟩ := List.mem_map.mp hf.1
    by_cases h : (c.id == cid) = true
    · rw [if_pos h] at hfc
      rw [← hfc] at hact
      simp at hact
    · rw [if_neg h] at hfc
      intro he
      rw [← hfc] at he
      exact h (beq_iff_eq.mpr he)

/-- A concrete store with one active expense category and one expense
record referencing it by name. -/
def exSoftDb : Db :=
  ⟨[], [⟨1, "Food", some "F", [⟨"Snacks", "S", false, none⟩], none, true⟩],
   [], [], [], [⟨7, "Food", 120⟩]⟩

/-- Witness for C6: at the concrete store the expense records survive
and the deleted category leaves the active listing. -/
theorem soft_delete_only_flips_active_witness :
    (deleteCategory exSoftDb 1).expenses = exSoftDb.expenses ∧
    (∀ c1 ∈ getAllCategories (deleteCategory exSoftDb 1), c1.id ≠ 1) :=
  ⟨(soft_delete_only_flips_active exSoftDb 1).1,
   (soft_delete_only_flips_active exSoftDb 1).2.2.2.2.2.2⟩

/-- `selectSingle` only answers with a member of the query result. -/
lemma selectSingle_mem {α : Type} (l : List α) (a : α)
    (h : selectSingle l = some a) : a ∈ l := by
  rcases l with _ | ⟨x, _ | ⟨y, t⟩⟩
  · exact absurd h (by simp [selectSingle])
  · have : x = a := by
      simpa [selectSingle] using h
    rw [this] at *
    exact List.mem_singleton_self a
  · exact absurd h (by simp [selectSingle])

/-- Appending a subcategory keeps the name list duplicate-free exactly
when the appended name is absent. -/
lemma nodup_names_append (l : List Subcat) (s : Subcat)
    (h : (l.map (fun x => x.name)).Nodup)
    (hn : s.name ∉ l.map (fun x => x.name)) :
    ((l ++ [s]).map (fun x => x.name)).Nodup := by
  rw [List.map_append, List.nodup_append, List.map_singleton,
    List.disjoint_singleton]
  exact ⟨h, List.nodup_singleton _, hn⟩

/-- The read-modify-write rename of the embedded list keeps the name
list duplicate-free when the written name does not collide. -/
lemma nodup_names_update (l : List Subcat) (target : String) (u : SubcatUpdate)
    (h : (l.map (fun x => x.name)).Nodup)
    (hn : u.name.getD target = target ∨
      u.name.getD target ∉ l.map (fun x => x.name)) :
    ((l.map (fun sub => if sub.name == target then mergeSub sub u else sub)).map
      (fun x => x.name)).Nodup := by
  induction l with
  | nil => simp
  | cons a t ih =>
    rw [List.map_cons, List.nodup_cons] at h
    obtain ⟨ha, ht⟩ := h
    by_cases hb : (a.name == target) = true
    · have hban : a.name = target := beq_iff_eq.mp hb
      have htid : t.map (fun sub => if sub.name == target then mergeSub sub u else sub)
          = t := by
        rw [show t = t.map id from (List.map_id t).symm]
        rw [List.map_map]
        apply List.map_congr_left
        intro x hx
        have hxt : (x.name == target) = false := by
          rcases hq : (x.name == target) with _ | _
          · rfl
          · exfalso
            apply ha
            exact List.mem_map.mpr ⟨x, hx,
              ((beq_iff_eq.mp hq).trans hban.symm).symm ▸ rfl⟩
        show (if x.name == target then mergeSub x u else x) = id x
        simp only [hxt, Bool.false_eq_true, if_false, id]
      rw [List.map_cons, if_pos hb, List.map_cons, htid, List.nodup_cons]
      refine ⟨?_, ht⟩
      have hmn : (mergeSub a u).name = u.name.getD target := by
        unfold mergeSub
        rw [hban]
      rw [hmn]
      rcases hn with hEq | hNin
      · rw [hEq, ← hban]
        exact ha
      · intro hmem
        apply hNin
        rw [List.map_cons]
        exact List.mem_cons_of_mem _ hmem
    · have hn' : u.name.getD target = target ∨
          u.name.getD target ∉ t.map (fun x => x.name) := by
        rcases hn with hEq | hNin
        · exact Or.inl hEq
        · refine Or.inr ?_
          intro hmem
          apply hNin
          rw [List.map_cons]
          exact List.mem_cons_of_mem _ hmem
      rw [List.map_cons, if_neg hb, List.map_cons, List.nodup_cons]
      refine ⟨?_, ih ht hn'⟩
      intro hmem
      obtain ⟨y, hy, hyname⟩ := List.mem_map.mp hmem
      obtain ⟨x, hx, hxy⟩ := List.mem_map.mp hy
      by_cases hxt : (x.name == target) = true
      · rw [if_pos hxt] at hxy
        have : (mergeSub x u).name = u.name.getD target := by
          unfold mergeSub
          rw [beq_iff_eq.mp hxt]
        rw [← hxy, this] at hyname
        rcases hn with hEq | hNin
        · rw [hEq] at hyname
          exact hb (beq_iff_eq.mpr hyname.symm)
        · apply hNin
          rw [List.map_cons, hyname]
          exact List.mem_cons_self _ _
      · rw [if_neg hxt] at hxy
        apply ha
        rw [← hxy] at hyname
        exact List.mem_map.mpr ⟨x, hx, hyname⟩

/-- Filtering the embedded list keeps the name list duplicate-free. -/
lemma nodup_names_filter (l : List Subcat) (p : Subcat → Bool)
    (h : (l.map (fun x => x.name)).Nodup) :
    ((l.filter p).map (fun x => x.name)).Nodup :=
  List.Nodup.sublist (List.Sublist.map _ (List.filter_sublist l)) h

/-- A store whose one expense category already holds a subcategory named
`Snacks`. -/
def exDupDb : Db :=
  ⟨[], [⟨1, "Food", some "F", [⟨"Snacks", "S", false, none⟩], none, true⟩],
   [], [], [], []⟩

/-- C7 counterexample: starting from a store satisfying the uniqueness
invariant, `addSubcategory` appends a subcategory whose name is already
present (it performs no duplicate check), and the invariant is broken in
the result. -/
theorem subcategory_ops_preserve_uniqueness_counterexample :
    dbSubsUnique exDupDb ∧
    (addSubcategory exDupDb 1 ⟨"Snacks", "S2", true, none⟩).toOption.map
        (fun db1 => decide (dbSubsUnique db1)) = some false := by
  exact ⟨by decide, by decide⟩

/-- C7 (amended): `deleteSubcategory` always preserves the
one-name-per-list invariant; `addSubcategory` preserves it when the
added name is not already in the target category's list;
`updateSubcategory` preserves it when the written name either equals the
targeted name or is absent from the target category's list. -/
theorem subcategory_ops_preserve_uniqueness_amended (db : Db) (cid : Nat) :
    (∀ (sub : Subcat) (db1 : Db), dbSubsUnique db →
      addSubcategory db cid sub = .ok db1 →
      (∀ c ∈ db.expense_categories, c.id = cid →
        sub.name ∉ c.subcategories.map (fun x => x.name)) →
      dbSubsUnique db1) ∧
    (∀ (target : String) (u : SubcatUpdate) (db1 : Db), dbSubsUnique db →
      updateSubcategory db cid target u = .ok db1 →
      (∀ c ∈ db.expense_categories, c.id = cid →
        (u.name.getD target = target ∨
          u.name.getD target ∉ c.subcategories.map (fun x => x.name))) →
      dbSubsUnique db1) ∧
    (∀ (target : String) (db1 : Db), dbSubsUnique db →
      deleteSubcategory db cid target = .ok db1 → dbSubsUnique db1) := by
  refine ⟨?_, ?_, ?_⟩
  · intro sub db1 hInv hok hfree
    rcases hsel : selectSingle (db.expense_categories.filter (fun c => c.id == cid))
      with _ | cat
    · rw [addSubcategory, hsel] at hok
      exact absurd hok (by simp)
    · rw [addSubcategory, hsel] at hok
      have hcat : cat ∈ db.expense_categories ∧ (cat.id == cid) = true :=
        List.mem_filter.mp (selectSingle_mem _ _ hsel)
      injection hok with hok
      rw [← hok]
      intro c1 hc1
      obtain ⟨c, hc, hfc⟩ := List.mem_map.mp hc1
      by_cases h : (c.id == cid) = true
      · rw [if_pos h] at hfc
        rw [← hfc]
        unfold subNamesUnique
        exact nodup_names_append _ _ (hInv cat hcat.1)
          (hfree cat hcat.1 (beq_iff_eq.mp hcat.2))
      · rw [if_neg h] at hfc
        rw [← hfc]
        exact hInv c hc
  · intro target u db1 hInv hok hfree
    rcases hsel : selectSingle (db.expense_categories.filter (fun c => c.id == cid))
      with _ | cat
    · rw [updateSubcategory, hsel] at hok
      exact absurd hok (by simp)
    · rw [updateSubcategory, hsel] at hok
      have hcat : cat ∈ db.expense_categories ∧ (cat.id == cid) = true :=
        List.mem_filter.mp (selectSingle_mem _ _ hsel)
      injection hok with hok
      rw [← hok]
      intro c1 hc1
      obtain ⟨c, hc, hfc⟩ := List.mem_map.mp hc1
      by_cases h : (c.id == cid) = true
      · rw [if_pos h] at hfc
        rw [← hfc]
        unfold subNamesUnique
        exact nodup_names_update _ _ _ (hInv cat hcat.1)
          (hfree cat hcat.1 (beq_iff_eq.mp hcat.2))
      · rw [if_neg h] at hfc
        rw [← hfc]
        exact hInv c hc
  · intro target db1 hInv hok
    rcases hsel : selectSingle (db.expense_categories.filter (fun c => c.id == cid))
      with _ | cat
    · rw [deleteSubcategory, hsel] at hok
      exact absurd hok (by simp)
    · rw [deleteSubcategory, hsel] at hok
      have hcat : cat ∈ db.expense_categories ∧ (cat.id == cid) = true :=
        List.mem_filter.mp (selectSingle_mem _ _ hsel)
      injection hok with hok
      rw [← hok]
      intro c1 hc1
      obtain ⟨c, hc, hfc⟩ := List.mem_map.mp hc1
      by_cases h : (c.id == cid) = true
      · rw [if_pos h] at hfc
        rw [← hfc]
        unfold subNamesUnique
        exact nodup_names_filter _ _ (hInv cat hcat.1)
      · rw [if_neg h] at hfc
        rw [← hfc]
        exact hInv c hc

/-- The store of `exDupDb` after a fresh-named subcategory was added. -/
def exDup2Db : Db :=
  ⟨[], [⟨1, "Food", some "F",
    [⟨"Snacks", "S", false, none⟩, ⟨"Pizza", "P", false, none⟩], none, true⟩],
   [], [], [], []⟩

/-- Witness for C7 (amended): adding the fresh name `Pizza` keeps the
invariant at the concrete store. -/
theorem subcategory_ops_preserve_uniqueness_amended_witness :
    dbSubsUnique exDup2Db :=
  (subcategory_ops_preserve_uniqueness_amended exDupDb 1).1
    ⟨"Pizza", "P", false, none⟩ exDup2Db (by decide) (by rfl) (by decide)

/-- C8 counterexample: `addCategory` inserts the caller's `categoryData`
as given, so a create that supplies a non-empty subcategory list
produces a category that does not start with an empty subcategory
list. -/
theorem add_category_defaults_counterexample :
    (addCategory ⟨[], [], [], [], [], []⟩ 7
        ⟨"Custom", none, some [⟨"Gadgets", "G", false, none⟩], none⟩).toOption.map
      (fun pr => pr.2.subcategories) =
      some [⟨"Gadgets", "G", false, none⟩] ∧
    ([⟨"Gadgets", "G", false, none⟩] : List Subcat) ≠ [] := by
  exact ⟨by rfl, by decide⟩

/-- C8 (amended): creating an expense category rejects a duplicate name
through the store's `UNIQUE(category)` constraint (the service surfaces
the thrown error); the created row takes the column defaults — null
icon, empty subcategory list, active — only for the fields the caller
omitted, and stores whatever subcategory list the caller supplied. -/
theorem add_category_unique_and_defaults_amended (db : Db) (newId : Nat)
    (cd : NewCategoryData) :
    ((∃ c ∈ db.expense_categories, c.category = cd.category) →
      addCategory db newId cd =
        .error "duplicate key value violates unique constraint") ∧
    ((∀ c ∈ db.expense_categories, c.category ≠ cd.category) →
      addCategory db newId cd = .ok
        ({ db with
            expense_categories := db.expense_categories ++
              [⟨newId, cd.category, cd.icon, cd.subcategories.getD [],
                cd.category_type_id, true⟩] },
         ⟨newId, cd.category, cd.icon, cd.subcategories.getD [],
          cd.category_type_id, true⟩)) := by
  constructor
  · rintro ⟨c, hc, hceq⟩
    have hany : (db.expense_categories.any (fun c => c.category == cd.category))
        = true :=
      List.any_eq_true.mpr ⟨c, hc, beq_iff_eq.mpr hceq⟩
    unfold addCategory
    rw [if_pos hany]
  · intro hforall
    have hany : (db.expense_categories.any (fun c => c.category == cd.category))
        = false := by
      rcases hq : (db.expense_categories.any (fun c => c.category == cd.category))
        with _ | _
      · rfl
      · obtain ⟨c, hc, hcp⟩ := List.any_eq_true.mp hq
        exact absurd (beq_iff_eq.mp hcp) (hforall c hc)
    unfold addCategory
    rw [hany]
    simp only [Bool.false_eq_true, if_false]

/-- Witness for C8 (amended): creating a fresh name on an empty store
appends exactly the given row with the column defaults filled in. -/
theorem add_category_unique_and_defaults_amended_witness :
    addCategory ⟨[], [], [], [], [], []⟩ 7 ⟨"Custom", none, none, none⟩ = .ok
      (⟨[], [⟨7, "Custom", none, [], none, true⟩], [], [], [], []⟩,
       ⟨7, "Custom", none, [], none, true⟩) :=
  (add_category_unique_and_defaults_amended ⟨[], [], [], [], [], []⟩ 7
    ⟨"Custom", none, none, none⟩).2 (by intro c hc; cases hc)

/-- C9 counterexample: a verify request with a valid signature whose
captured-state row update errors (`.single()` matches no row, the
`error` the handler logs) still answers 200 success — the storage error
of the request's primary operation is swallowed, not surfaced. -/
theorem primary_error_surfacing_counterexample :
    (verifyPayment exHmac "sec" "T0" ⟨[], [], [], [], [], []⟩ "orderX" "payX"
        (exHmac "sec" ("orderX" ++ "|" ++ "payX"))).capturedUpdateError = true ∧
    (verifyPayment exHmac "sec" "T0" ⟨[], [], [], [], [], []⟩ "orderX" "payX"
        (exHmac "sec" ("orderX" ++ "|" ++ "payX"))).resp.success = true ∧
    (verifyPayment exHmac "sec" "T0" ⟨[], [], [], [], [], []⟩ "orderX" "payX"
        (exHmac "sec" ("orderX" ++ "|" ++ "payX"))).resp.status = 200 := by
  exact ⟨by rfl, by rfl, by rfl⟩

/-- C9 (amended): primary-path storage errors are surfaced as 5xx
failures on the category-type create route, but two primary operations
deviate from the policy: the verify endpoint's captured-state update
logs its error and still answers 200 success, and `getSubcategories`
swallows its query error, answering an empty list. -/
theorem primary_error_surfacing_amended :
    (∀ (hmacHex : String → String → String) (secret now : String) (db : Db)
        (oid pid : String),
      oid ≠ "" → pid ≠ "" →
      hmacHex secret (oid ++ "|" ++ pid) ≠ "" →
      db.payments.filter (fun p => p.razorpay_order_id == oid) = [] →
      (verifyPayment hmacHex secret now db oid pid
          (hmacHex secret (oid ++ "|" ++ pid))).capturedUpdateError = true ∧
      (verifyPayment hmacHex secret now db oid pid
          (hmacHex secret (oid ++ "|" ++ pid))).resp.success = true ∧
      (verifyPayment hmacHex secret now db oid pid
          (hmacHex secret (oid ++ "|" ++ pid))).resp.status = 200) ∧
    (∀ (db : Db) (name : String),
      db.expense_categories.filter (fun c => c.category == name && c.is_active)
        = [] →
      getSubcategories db name = []) ∧
    (∀ (db : Db) (newId expId incId : Nat) (tn d : JsVal) (nm : String)
        (desc : Option String),
      validateCategoryType tn d = .ok nm desc →
      selectSingle (db.category_types.filter (fun t => t.type_name == nm)) = none →
      db.category_types.any (fun t => t.type_name == nm) = true →
      (createCategoryType db newId expId incId tn d).2.status = 500 ∧
      (createCategoryType db newId expId incId tn d).2.success = false) := by
  refine ⟨?_, ?_, ?_⟩
  · intro hmacHex secret now db oid pid hOid hPid hSig hRow
    have hcond : (oid == "" || pid == "" ||
        (hmacHex secret (oid ++ "|" ++ pid)) == "") = false := by
      rw [beq_eq_false_iff_ne.mpr hOid, beq_eq_false_iff_ne.mpr hPid,
        beq_eq_false_iff_ne.mpr hSig]
      rfl
    have hMatch : (hmacHex secret (oid ++ "|" ++ pid) !=
        hmacHex secret (oid ++ "|" ++ pid)) = false := by
      simp [bne]
    have hFilt : ((db.payments.map (captureUpd oid pid
          (hmacHex secret (oid ++ "|" ++ pid)) now)).filter
        (fun p => p.razorpay_order_id == oid)) = [] := by
      rw [payments_filter_map _ _
        (captureUpd_keeps_oid oid pid (hmacHex secret (oid ++ "|" ++ pid)) now) oid,
        hRow]
      rfl
    have hval : verifyPayment hmacHex secret now db oid pid
        (hmacHex secret (oid ++ "|" ++ pid)) =
        ⟨{ db with payments := db.payments.map (captureUpd oid pid
            (hmacHex secret (oid ++ "|" ++ pid)) now) },
         ⟨200, true, none⟩, true⟩ := by
      simp only [verifyPayment, hcond, Bool.false_eq_true, if_false, hMatch,
        hFilt, selectSingle, Option.isNone]
    rw [hval]
    exact ⟨rfl, rfl, rfl⟩
  · intro db name hfil
    unfold getSubcategories
    rw [hfil]
    rfl
  · intro db newId expId incId tn d nm desc hV hsel hany
    have hval : createCategoryType db newId expId incId tn d =
        (db, ⟨500, false, some "Failed to create category type", none⟩) := by
      simp only [createCategoryType, hV, hsel, hany, if_true]
    rw [hval]
    exact ⟨rfl, rfl⟩

/-- A store with two category-type rows sharing a name, making the
`.single()` duplicate pre-check miss while the insert still collides. -/
def exDupTypeDb : Db := ⟨[⟨1, "Dup", none⟩, ⟨2, "Dup", none⟩], [], [], [], [], []⟩

/-- Witness for C9 (amended): concrete instances of the two swallowing
paths and of a surfaced 500. -/
theorem primary_error_surfacing_amended_witness :
    (verifyPayment exHmac "sec" "T1" ⟨[], [], [], [], [], []⟩ "orderY" "payY"
        (exHmac "sec" ("orderY" ++ "|" ++ "payY"))).resp.success = true ∧
    getSubcategories ⟨[], [], [], [], [], []⟩ "Nope" = [] ∧
    (createCategoryType exDupTypeDb 9 10 11 (JsVal.str "Dup")
        JsVal.undefined).2.status = 500 := by
  refine ⟨?_, ?_, ?_⟩
  · exact (primary_error_surfacing_amended.1 exHmac "sec" "T1"
      ⟨[], [], [], [], [], []⟩ "orderY" "payY" (by decide) (by decide) (by decide)
      (by rfl)).2.1
  · exact primary_error_surfacing_amended.2.1 ⟨[], [], [], [], [], []⟩ "Nope" (by rfl)
  · exact (primary_error_surfacing_amended.2.2 exDupTypeDb 9 10 11
      (JsVal.str "Dup") JsVal.undefined "Dup" none (by decide) (by rfl)
      (by decide)).1

/-- C10: with no webhook secret configured the webhook answers 200 at
once with every payment row unchanged; with a secret set, a signature
header differing from the hex HMAC of the request body answers 400 with
no row change; on a signature match the route answers 200, changes
nothing unless the event is `payment.captured` with an order id, and in
that case marks exactly the rows of that order id captured. -/
theorem payments_webhook_guards (hmacHex : String → String → String)
    (now : String) (ws : Option String) (db : Db) (req : WebhookReq) :
    (ws = none → paymentsWebhook hmacHex now ws db req = (db, 200)) ∧
    (∀ s, ws = some s → s ≠ "" →
      req.signatureHeader ≠ some (hmacHex s req.rawBody) →
      paymentsWebhook hmacHex now ws db req = (db, 400)) ∧
    (∀ s, ws = some s → s ≠ "" →
      req.signatureHeader = some (hmacHex s req.rawBody) →
      (paymentsWebhook hmacHex now ws db req).2 = 200 ∧
      (¬(req.event = some "payment.captured" ∧ req.orderId.getD "" ≠ "") →
        (paymentsWebhook hmacHex now ws db req).1 = db) ∧
      (req.event = some "payment.captured" → req.orderId.getD "" ≠ "" →
        List.Forall₂ (fun p p1 =>
            (p.razorpay_order_id = req.orderId.getD "" →
              p1.status = "captured" ∧ p1.verified_at = some now ∧
              p1.razorpay_order_id = p.razorpay_order_id) ∧
            (p.razorpay_order_id ≠ req.orderId.getD "" → p1 = p))
          db.payments (paymentsWebhook hmacHex now ws db req).1.payments)) := by
  refine ⟨?_, ?_, ?_⟩
  · intro h
    rw [h]
    rfl
  · intro s hws hs hsig
    have hsB : (s == "") = false := beq_eq_false_iff_ne.mpr hs
    have hsigB : (req.signatureHeader != some (hmacHex s req.rawBody)) = true := by
      simp only [bne, Bool.not_eq_true']
      exact beq_eq_false_iff_ne.mpr hsig
    rw [hws]
    show (if s == "" then (db, 200) else _) = (db, 400)
    rw [hsB]
    simp only [Bool.false_eq_true, if_false, hsigB, if_true]
  · intro s hws hs hsig
    have hsB : (s == "") = false := beq_eq_false_iff_ne.mpr hs
    have hsigB : (req.signatureHeader != some (hmacHex s req.rawBody)) = false := by
      simp only [bne, Bool.not_eq_false']
      exact beq_iff_eq.mpr hsig
    rcases hc : (req.event == some "payment.captured" &&
        req.orderId.getD "" != "") with _ | _
    · have hval : paymentsWebhook hmacHex now ws db req = (db, 200) := by
        rw [hws]
        show (if s == "" then (db, 200) else _) = (db, 200)
        rw [hsB]
        simp only [Bool.false_eq_true, if_false, hsigB, hc, if_true]
      rw [hval]
      refine ⟨rfl, fun _ => rfl, fun hev hoid => ?_⟩
      exfalso
      have : (req.event == some "payment.captured" &&
          req.orderId.getD "" != "") = true := by
        rw [beq_iff_eq.mpr hev]
        simp only [Bool.true_and, bne, Bool.not_eq_true']
        exact beq_eq_false_iff_ne.mpr hoid
      rw [hc] at this
      exact Bool.noConfusion this
    · have hval : paymentsWebhook hmacHex now ws db req =
          ({ db with payments :=
              db.payments.map (webhookCaptureUpd (req.orderId.getD "") req now) },
           200) := by
        rw [hws]
        show (if s == "" then (db, 200) else _) = _
        rw [hsB]
        simp only [Bool.false_eq_true, if_false, hsigB, hc, if_true]
      rw [hval]
      have hne : ¬¬(req.event = some "payment.captured" ∧
          req.orderId.getD "" ≠ "") := by
        intro hneg
        have hcc := (Bool.and_eq_true _ _).mp hc
        apply hneg
        constructor
        · exact beq_iff_eq.mp hcc.1
        · have := hcc.2
          simp only [bne, Bool.not_eq_true'] at this
          exact beq_eq_false_iff_ne.mp this
      refine ⟨rfl, fun hneg => absurd hneg hne, fun _ _ => ?_⟩
      rw [List.forall₂_map_right_iff, List.forall₂_same]
      intro p _
      unfold webhookCaptureUpd
      by_cases h : (p.razorpay_order_id == req.orderId.getD "") = true
      · rw [if_pos h]
        exact ⟨fun _ => ⟨rfl, rfl, rfl⟩,
          fun hno => absurd (beq_iff_eq.mp h) hno⟩
      · rw [if_neg h]
        exact ⟨fun he => absurd (beq_iff_eq.mpr he) h, fun _ => rfl⟩

/-- A webhook request with a mismatched signature header. -/
def exWebhookReq : WebhookReq :=
  ⟨some "bad", "{}", some "payment.captured", some "orderW", some "payW",
   none, none, none⟩

/-- Witness for C10: with no secret the webhook answers 200 unchanged,
and with a secret a mismatched signature answers 400 unchanged. -/
theorem payments_webhook_guards_witness :
    paymentsWebhook exHmac "T2" none ⟨[], [], [], [], [], []⟩ exWebhookReq =
      (⟨[], [], [], [], [], []⟩, 200) ∧
    paymentsWebhook exHmac "T2" (some "wsec") ⟨[], [], [], [], [], []⟩
        exWebhookReq = (⟨[], [], [], [], [], []⟩, 400) := by
  constructor
  · exact (payments_webhook_guards exHmac "T2" none ⟨[], [], [], [], [], []⟩
      exWebhookReq).1 rfl
  · exact (payments_webhook_guards exHmac "T2" (some "wsec")
      ⟨[], [], [], [], [], []⟩ exWebhookReq).2.1 "wsec" rfl (by decide) (by decide)

end FinanceBackend
